import Mathlib

set_option linter.unusedVariables false

namespace PrivateGpt

/-! Shallow embedding of `src/private_gpt/ui/ui.py`: the session and turn
orchestration layer of the PrivateGPT UI.  Python dictionaries are modelled as
association lists, the external document store as a list of records, and the
generation/retrieval services as function parameters; operations that can raise
a Python exception return `Except String`. -/

/-- Python string-keyed metadata dictionary, modelled as an association list;
lookup returns the first binding of a key. -/
abbrev Dict := List (String × String)

/-- Embedding of the Python dictionary lookup `d[k]`: `none` models a raised
`KeyError`. -/
def Dict.find (d : Dict) (k : String) : Option String :=
  (List.find? (fun kv => decide (kv.1 = k)) d).map (fun kv => kv.2)

/-- Embedding of Python `d.get(k, dflt)`. -/
def Dict.getD (d : Dict) (k dflt : String) : String :=
  (Dict.find d k).getD dflt

/-- Modelled from the spec: the Document Store record `{id, metadata?}` of
section 6 (the `IngestedDoc` schema of the ingest service, which is not under
`src/`); `doc_metadata = none` models a record without a metadata mapping. -/
structure IngestedDoc where
  doc_id : String
  doc_metadata : Option Dict
  deriving DecidableEq

/-- Modelled from the spec: a retrieval service chunk
`{document: {doc_metadata?}, text}` (the chunks service is not under `src/`). -/
structure Chunk where
  document : IngestedDoc
  text : String
  deriving DecidableEq

/-- Modelled from the spec: the role of a turn message. -/
inductive MessageRole where
  | user
  | assistant
  | system
  deriving DecidableEq

/-- Modelled from the spec: a turn message `ChatMessage(content=…, role=…)`. -/
structure ChatMessage where
  content : String
  role : MessageRole
  deriving DecidableEq

/-- Modelled from the spec: the Document Filter `ContextFilter(docs_ids=…)`. -/
structure ContextFilter where
  docs_ids : List String
  deriving DecidableEq

/-- Modelled from the spec: one element of the generation stream, either a plain
string fragment or a structured `ChatResponse` event whose optional `delta`
field carries the fragment. -/
inductive Delta where
  | str (s : String)
  | chatResponse (delta : Option String)
  deriving DecidableEq

/-- The evidence delimiter constant `SOURCES_SEPARATOR` of ui.py. -/
def SOURCES_SEPARATOR : String := "\n\n Sources: \n"

/-- The delimiter as a character list, for the splitting functions below. -/
def sepChars : List Char := SOURCES_SEPARATOR.data

/-- `leadsWith sep l` is true when `sep` is an initial segment of `l`. -/
def leadsWith : List Char → List Char → Bool
  | [], _ => true
  | _ :: _, [] => false
  | s :: ss, c :: cs => s == c && leadsWith ss cs

/-- Characters of `l` strictly before the first occurrence of `sep`; the whole
of `l` when `sep` does not occur.  This is the semantics of the Python
expression `l.split(sep)[0]` for a non-empty separator. -/
def beforeSep (sep : List Char) : List Char → List Char
  | [] => []
  | c :: cs => if leadsWith sep (c :: cs) then [] else c :: beforeSep sep cs

/-- Whether `sep` occurs as a contiguous segment of `l`. -/
def containsSep (sep : List Char) : List Char → Bool
  | [] => leadsWith sep []
  | c :: cs => leadsWith sep (c :: cs) || containsSep sep cs

/-- The suffix of `l` starting at the first occurrence of `sep`. -/
def fromSep (sep : List Char) : List Char → List Char
  | [] => []
  | c :: cs => if leadsWith sep (c :: cs) then c :: cs else fromSep sep cs

/-- Embedding of `interaction[1].split(SOURCES_SEPARATOR)[0]` from
`build_history` in ui.py. -/
def stripSources (s : String) : String :=
  ⟨beforeSep sepChars s.data⟩

/-- Text contributed by one delta: plain strings verbatim, and
`delta.delta or ""` for structured events. -/
def deltaText : Delta → String
  | .str s => s
  | .chatResponse d => d.getD ""

/-- Loop body of `yield_deltas`: the accumulated text is yielded after every
delta, and once more after the stream is exhausted. -/
def yield_deltas_go (full_response : String) : List Delta → List String
  | [] => [full_response]
  | delta :: stream =>
      (full_response ++ deltaText delta) ::
        yield_deltas_go (full_response ++ deltaText delta) stream

/-- Embedding of the inner function `yield_deltas` of `_chat` in ui.py. -/
def yield_deltas (stream : List Delta) : List String :=
  yield_deltas_go "" stream

/-- The flattened pair expansion computed inside `build_history` in ui.py,
before truncation: a `user` message then a stripped `assistant` message for
each transcript pair. -/
def flattenPairs (history : List (String × String)) : List ChatMessage :=
  (history.map (fun interaction =>
    [ChatMessage.mk interaction.1 MessageRole.user,
     ChatMessage.mk (stripSources interaction.2) MessageRole.assistant])).flatten

/-- Embedding of the inner function `build_history` of `_chat` in ui.py:
the flattened expansion truncated by the Python slice `[:20]`. -/
def build_history (history : List (String × String)) : List ChatMessage :=
  (flattenPairs history).take 20

/-- Embedding of the message assembly of `_chat` in ui.py: append the new user
message to the built history, then insert a system message at position 0 when
the session system prompt is non-empty (Python truthiness of a string). -/
def assemble_messages (system_prompt message : String)
    (history : List (String × String)) : List ChatMessage :=
  let new_message : ChatMessage := ⟨message, MessageRole.user⟩
  let all_messages := build_history history ++ [new_message]
  if system_prompt = "" then all_messages
  else ⟨system_prompt, MessageRole.system⟩ :: all_messages

/-- The `Source` record of ui.py. -/
structure Source where
  file : String
  page : String
  text : String
  deriving DecidableEq

/-- Python truthiness-guarded metadata read used in `curate_sources`:
`doc_metadata.get(k, dflt) if doc_metadata else dflt` (both `None` and the
empty dictionary are falsy). -/
def metaTruthyGetD (m : Option Dict) (k dflt : String) : String :=
  match m with
  | none => dflt
  | some d => if d.isEmpty then dflt else Dict.getD d k dflt

/-- The `Source` extracted from one chunk inside `Source.curate_sources`. -/
def chunkSource (chunk : Chunk) : Source :=
  { file := metaTruthyGetD chunk.document.doc_metadata "file_name" "-"
    page := metaTruthyGetD chunk.document.doc_metadata "page_label" "-"
    text := chunk.text }

/-- Insertion into an insertion-ordered set: the semantics of adding a key to a
Python `dict` (or a `set`, whose iteration order we model as insertion order). -/
def setAdd {α : Type} [DecidableEq α] (acc : List α) (x : α) : List α :=
  if x ∈ acc then acc else acc ++ [x]

/-- Embedding of `list(dict.fromkeys(xs))`: order-preserving deduplication in
which the first occurrence of each element wins. -/
def pyFromKeys {α : Type} [DecidableEq α] (xs : List α) : List α :=
  xs.foldl setAdd []

/-- Embedding of `Source.curate_sources` from ui.py: each chunk's source is
appended and the list is re-deduplicated via `dict.fromkeys` on every
iteration. -/
def Source.curate_sources (sources : List Chunk) : List Source :=
  sources.foldl (fun curated chunk => pyFromKeys (curated ++ [chunkSource chunk])) []

/-- Rendering of one curated source in the Search Files branch of `_chat`. -/
def formatSource (index : Nat) (source : Source) : String :=
  toString index ++ ". **" ++ source.file ++ " (page " ++ source.page ++ ")**\n "
    ++ source.text

/-- The single output value of the Search Files branch of `_chat`. -/
def searchOutput (sources : List Source) : String :=
  String.intercalate "\n\n\n"
    (sources.enum.map (fun is => formatSource (is.1 + 1) is.2))

/-- Backend calls observable from one `_chat` turn. -/
inductive BackendCall where
  | listIngested
  | streamChat (messages : List ChatMessage) (use_context : Bool)
      (context_filter : Option ContextFilter)
  | retrieveRelevant (text : String) (limit : Nat) (prev_next_chunks : Nat)
  deriving DecidableEq

/-- The Query Files document scan of `_chat` (ui.py lines 140-146): the
unguarded subscript `ingested_document.doc_metadata["file_name"]` raises
`TypeError` on records whose metadata is `None` and `KeyError` when the key is
missing; matching records contribute their `doc_id` in scan order. -/
def scanDocsIds (name : String) : List IngestedDoc → Except String (List String)
  | [] => .ok []
  | r :: rs =>
      match r.doc_metadata with
      | none => .error "TypeError"
      | some d =>
          match Dict.find d "file_name" with
          | none => .error "KeyError"
          | some fn =>
              match scanDocsIds name rs with
              | .error e => .error e
              | .ok ids => .ok (if fn = name then r.doc_id :: ids else ids)

/-- Context-filter construction of the Query Files branch of `_chat`: `none`
when no document is selected, otherwise a `ContextFilter` built from the scan
(together with the `list_ingested` backend call the scan performs). -/
def queryFilter (selected : Option String) (store : List IngestedDoc) :
    Except String (Option ContextFilter × List BackendCall) :=
  match selected with
  | none => .ok (none, [])
  | some name =>
      match scanDocsIds name store with
      | .error e => .error e
      | .ok docs_ids => .ok (some ⟨docs_ids⟩, [BackendCall.listIngested])

/-- Query Files branch of `_chat`: resolve the filter, then issue a contextual
generation call and stream the deltas through `yield_deltas`. -/
def chatQueryFiles (store : List IngestedDoc)
    (stream_chat : List ChatMessage → Bool → Option ContextFilter → List Delta)
    (selected : Option String) (all_messages : List ChatMessage) :
    Except String (List BackendCall × List String) :=
  match queryFilter selected store with
  | .error e => .error e
  | .ok (context_filter, calls) =>
      .ok (calls ++ [BackendCall.streamChat all_messages true context_filter],
           yield_deltas (stream_chat all_messages true context_filter))

/-- LLM Chat branch of `_chat`: a generation call without context. -/
def chatLLM
    (stream_chat : List ChatMessage → Bool → Option ContextFilter → List Delta)
    (all_messages : List ChatMessage) :
    Except String (List BackendCall × List String) :=
  .ok ([BackendCall.streamChat all_messages false none],
       yield_deltas (stream_chat all_messages false none))

/-- Search Files branch of `_chat`: retrieval of the top 4 chunks with no
neighbour expansion, curated and rendered as one output value. -/
def chatSearch (retrieve_relevant : String → Nat → Nat → List Chunk)
    (message : String) : Except String (List BackendCall × List String) :=
  let response := retrieve_relevant message 4 0
  let sources := Source.curate_sources response
  .ok ([BackendCall.retrieveRelevant message 4 0], [searchOutput sources])

/-- The `match mode` dispatch of `_chat`; an unmatched mode falls through the
Python `match` statement and the generator yields nothing. -/
def chatDispatch (store : List IngestedDoc)
    (stream_chat : List ChatMessage → Bool → Option ContextFilter → List Delta)
    (retrieve_relevant : String → Nat → Nat → List Chunk)
    (selected : Option String) (all_messages : List ChatMessage)
    (message : String) (mode : String) :
    Except String (List BackendCall × List String) :=
  if mode = "Query Files" then
    chatQueryFiles store stream_chat selected all_messages
  else if mode = "LLM Chat (no context from files)" then
    chatLLM stream_chat all_messages
  else if mode = "Search Files" then
    chatSearch retrieve_relevant message
  else
    .ok ([], [])

/-- Embedding of `_chat` from ui.py.  The `mode` parameter supplied by the
transport layer is not consulted: the method's first statement reassigns
`mode = "Query Files"` before the dispatch, which is embedded here by passing
that literal to `chatDispatch`.  The result pairs the backend calls issued with
the list of yielded output values; `.error` models a raised exception. -/
def _chat (store : List IngestedDoc)
    (stream_chat : List ChatMessage → Bool → Option ContextFilter → List Delta)
    (retrieve_relevant : String → Nat → Nat → List Chunk)
    (selected_filename : Option String) (system_prompt : String)
    (message : String) (history : List (String × String)) (mode : String) :
    Except String (List BackendCall × List String) :=
  chatDispatch store stream_chat retrieve_relevant selected_filename
    (assemble_messages system_prompt message history) message "Query Files"

/-- The truthiness-guarded metadata read shared by `_upload_file` and
`_delete_selected_file`: `doc_metadata and doc_metadata["file_name"]`.
Falsy metadata (`None` or the empty dictionary) short-circuits to a skip
(`.ok none`); a non-empty dictionary without the key raises `KeyError`. -/
def scanFileName (r : IngestedDoc) : Except String (Option String) :=
  match r.doc_metadata with
  | none => .ok none
  | some d =>
      if d.isEmpty then .ok none
      else
        match Dict.find d "file_name" with
        | none => .error "KeyError"
        | some fn => .ok (some fn)

/-- Whether the guarded scan of a record succeeds (does not raise). -/
def metaOkB (r : IngestedDoc) : Bool :=
  match scanFileName r with
  | .ok _ => true
  | .error _ => false

/-- The file name the guarded scan reads from a record, when it reads one. -/
def guardFileName (r : IngestedDoc) : Option String :=
  match scanFileName r with
  | .ok v => v
  | .error _ => none

/-- The file name read by the unguarded Query Files scan:
`doc_metadata["file_name"]` when both the metadata and the key are present. -/
def chatFileName (r : IngestedDoc) : Option String :=
  r.doc_metadata.bind (fun d => Dict.find d "file_name")

/-- Whether the unguarded subscript of the Query Files scan succeeds. -/
def chatScanOkB (r : IngestedDoc) : Bool :=
  (chatFileName r).isSome

/-- Modelled from the spec: `delete(id)` of the external Document Store removes
the record with that identifier. -/
def storeDelete (store : List IngestedDoc) (doc_id : String) : List IngestedDoc :=
  store.filter (fun r => decide (r.doc_id ≠ doc_id))

/-- Document Store calls observable from the lifecycle operations. -/
inductive StoreCall where
  | listIngested
  | delete (doc_id : String)
  | bulkIngest (pairs : List (String × String))
  deriving DecidableEq

/-- Embedding of `Path(file).name`: the final path component. -/
def path_name (p : String) : String :=
  (p.splitOn "/").getLastD p

/-- The replace scan of `_upload_file`: collect, in scan order, the ids of
records whose guarded file-name read is a member of the incoming names. -/
def uploadScan (file_names : List String) :
    List IngestedDoc → Except String (List String)
  | [] => .ok []
  | r :: rs =>
      match scanFileName r with
      | .error e => .error e
      | .ok none => uploadScan file_names rs
      | .ok (some fn) =>
          match uploadScan file_names rs with
          | .error e => .error e
          | .ok ids => .ok (if fn ∈ file_names then r.doc_id :: ids else ids)

/-- Embedding of `_upload_file` from ui.py.  `ingest_fn` models the records the
external `bulk_ingest` call adds to the store (it is repository code outside
`src/`, specified in section 6 of the spec).  The result pairs the new store
contents with the ordered store calls issued. -/
def _upload_file (ingest_fn : List (String × String) → List IngestedDoc)
    (store : List IngestedDoc) (files : List String) :
    Except String (List IngestedDoc × List StoreCall) :=
  let file_names := files.map path_name
  match uploadScan file_names store with
  | .error e => .error e
  | .ok doc_ids_to_delete =>
      let store2 := doc_ids_to_delete.foldl storeDelete store
      let pairs := files.map (fun p => (path_name p, p))
      .ok (store2 ++ ingest_fn pairs,
           [StoreCall.listIngested] ++ doc_ids_to_delete.map StoreCall.delete
             ++ [StoreCall.bulkIngest pairs])

/-- Loop body of `_list_ingested_files`: records without metadata are skipped,
and a missing file-name key is replaced by the placeholder
`"[FILE NAME MISSING]"`. -/
def listFilesStep (files : List String) (r : IngestedDoc) : List String :=
  match r.doc_metadata with
  | none => files
  | some d => setAdd files (Dict.getD d "file_name" "[FILE NAME MISSING]")

/-- Embedding of `_list_ingested_files` from ui.py; the Python `set` is
modelled as an insertion-ordered set. -/
def _list_ingested_files (store : List IngestedDoc) : List (List String) :=
  (store.foldl listFilesStep []).map (fun row => [row])

/-- The UI state returned by the delete operations: the refreshed file listing,
the two selection-dependent buttons (made non-interactive) and the selection
label textbox. -/
structure DeleteOutcome where
  ingested_files : List (List String)
  delete_file_button_interactive : Bool
  deselect_file_button_interactive : Bool
  selected_text : String
  deriving DecidableEq

/-- The loop of `_delete_all_files`: iterate over the snapshot returned by
`list_ingested()` and delete each record's id from the evolving store. -/
def deleteAllLoop : List IngestedDoc → List IngestedDoc → List IngestedDoc
  | [], store => store
  | r :: rs, store => deleteAllLoop rs (storeDelete store r.doc_id)

/-- Embedding of `_delete_all_files` from ui.py.  The session selection is an
input and is returned unchanged, because the method never assigns
`self._selected_filename`. -/
def _delete_all_files (selected : Option String) (store : List IngestedDoc) :
    Option String × List IngestedDoc × DeleteOutcome :=
  let store2 := deleteAllLoop store store
  (selected, store2, ⟨_list_ingested_files store2, false, false, "All files"⟩)

/-- The per-record match test of `_delete_selected_file`:
`doc_metadata and doc_metadata["file_name"] == self._selected_filename`. -/
def matchesSelected (selected : Option String) (r : IngestedDoc) :
    Except String Bool :=
  match scanFileName r with
  | .error e => .error e
  | .ok none => .ok false
  | .ok (some fn) =>
      .ok (match selected with
           | some s => decide (fn = s)
           | none => false)

/-- Decidable form of the match test, defined for records whose guarded scan
succeeds. -/
def matchesSelectedB (selected : Option String) (r : IngestedDoc) : Bool :=
  match guardFileName r, selected with
  | some fn, some s => decide (fn = s)
  | _, _ => false

/-- The loop of `_delete_selected_file`: iterate over the snapshot returned by
`list_ingested()`, deleting every matching record from the evolving store. -/
def deleteSelectedLoop (selected : Option String) :
    List IngestedDoc → List IngestedDoc → Except String (List IngestedDoc)
  | [], store => .ok store
  | r :: rs, store =>
      match matchesSelected selected r with
      | .error e => .error e
      | .ok true => deleteSelectedLoop selected rs (storeDelete store r.doc_id)
      | .ok false => deleteSelectedLoop selected rs store

/-- Embedding of `_delete_selected_file` from ui.py.  As with
`_delete_all_files`, the session selection is returned unchanged: the method
deletes the matching records and deactivates the selection UI, but never
assigns `self._selected_filename`. -/
def _delete_selected_file (selected : Option String) (store : List IngestedDoc) :
    Except String (Option String × List IngestedDoc × DeleteOutcome) :=
  match deleteSelectedLoop selected store store with
  | .error e => .error e
  | .ok store2 =>
      .ok (selected, store2,
           ⟨_list_ingested_files store2, false, false, "All files"⟩)

/-! Lemmas about the delimiter-splitting functions. -/

lemma leadsWith_append {sep : List Char} : ∀ {xs : List Char},
    leadsWith sep xs = true → ∀ r : List Char, leadsWith sep (xs ++ r) = true := by
  induction sep with
  | nil => intro xs _ r; rfl
  | cons s ss ih =>
      intro xs h r
      cases xs with
      | nil => simp [leadsWith] at h
      | cons c cs =>
          rw [List.cons_append]
          simp only [leadsWith, Bool.and_eq_true] at h ⊢
          exact ⟨h.1, ih h.2 r⟩

lemma beforeSep_fromSep (sep : List Char) : ∀ l : List Char,
    beforeSep sep l ++ fromSep sep l = l := by
  intro l
  induction l with
  | nil => rfl
  | cons c cs ih =>
      by_cases h : leadsWith sep (c :: cs) = true
      · simp [beforeSep, fromSep, h]
      · simp [beforeSep, fromSep, h, ih]

lemma leadsWith_fromSep (sep : List Char) : ∀ l : List Char,
    containsSep sep l = true → leadsWith sep (fromSep sep l) = true := by
  intro l
  induction l with
  | nil => intro h; simpa [containsSep, fromSep] using h
  | cons c cs ih =>
      intro h
      by_cases hl : leadsWith sep (c :: cs) = true
      · simp [fromSep, hl]
      · simp only [containsSep, Bool.or_eq_true] at h
        rcases h with h | h
        · exact absurd h hl
        · simpa [fromSep, hl] using ih h

lemma leadsWith_decomp (sep : List Char) : ∀ l : List Char,
    leadsWith sep l = true → ∃ r, l = sep ++ r := by
  induction sep with
  | nil => intro l _; exact ⟨l, rfl⟩
  | cons s ss ih =>
      intro l h
      cases l with
      | nil => simp [leadsWith] at h
      | cons c cs =>
          simp only [leadsWith, Bool.and_eq_true, beq_iff_eq] at h
          obtain ⟨r, hr⟩ := ih cs h.2
          exact ⟨r, by rw [List.cons_append, h.1, hr]⟩

lemma containsSep_beforeSep (sep : List Char) (hsep : sep ≠ []) :
    ∀ l : List Char, containsSep sep (beforeSep sep l) = false := by
  intro l
  induction l with
  | nil =>
      cases sep with
      | nil => exact absurd rfl hsep
      | cons s ss => rfl
  | cons c cs ih =>
      by_cases hl : leadsWith sep (c :: cs) = true
      · simp only [beforeSep, hl, if_true]
        cases sep with
        | nil => exact absurd rfl hsep
        | cons s ss => rfl
      · simp only [beforeSep, hl, if_false, Bool.false_eq_true, ite_false]
        simp only [containsSep, Bool.or_eq_false_iff]
        refine ⟨?_, ih⟩
        cases hx : leadsWith sep (c :: beforeSep sep cs) with
        | false => rfl
        | true =>
            have h2 := leadsWith_append hx (fromSep sep cs)
            rw [List.cons_append, beforeSep_fromSep] at h2
            exact absurd h2 hl

lemma beforeSep_eq_of_not_contains (sep : List Char) : ∀ l : List Char,
    containsSep sep l = false → beforeSep sep l = l := by
  intro l
  induction l with
  | nil => intro _; rfl
  | cons c cs ih =>
      intro h
      simp only [containsSep, Bool.or_eq_false_iff] at h
      simp [beforeSep, h.1, ih h.2]

lemma sepChars_ne_nil : sepChars ≠ [] := by decide

/-! Claim C8. -/

/-- Claim C8: for every transcript pair, the History Builder emits the
assistant message content as the portion of the stored assistant text strictly
before the first occurrence of the evidence delimiter; the emitted assistant
content never contains the delimiter or anything after it, and text without the
delimiter passes through unchanged. -/
theorem c8_assistant_content_stripped (history : List (String × String))
    (p : String × String) (hp : p ∈ history) :
    ChatMessage.mk (stripSources p.2) MessageRole.assistant ∈ flattenPairs history
    ∧ containsSep sepChars (stripSources p.2).data = false
    ∧ (containsSep sepChars p.2.data = false → stripSources p.2 = p.2)
    ∧ (containsSep sepChars p.2.data = true →
        ∃ rest, p.2.data = (stripSources p.2).data ++ sepChars ++ rest) := by
  refine ⟨?_, ?_, ?_, ?_⟩
  · rw [flattenPairs, List.mem_flatten]
    exact ⟨[ChatMessage.mk p.1 MessageRole.user,
            ChatMessage.mk (stripSources p.2) MessageRole.assistant],
           List.mem_map_of_mem _ hp, by simp⟩
  · exact containsSep_beforeSep sepChars sepChars_ne_nil p.2.data
  · intro h
    exact String.ext (beforeSep_eq_of_not_contains sepChars p.2.data h)
  · intro h
    obtain ⟨r, hr⟩ := leadsWith_decomp sepChars _ (leadsWith_fromSep sepChars p.2.data h)
    refine ⟨r, ?_⟩
    have hd := beforeSep_fromSep sepChars p.2.data
    rw [hr] at hd
    rw [show (stripSources p.2).data = beforeSep sepChars p.2.data from rfl,
      List.append_assoc]
    exact hd.symm

/-- Concrete instantiation of `c8_assistant_content_stripped` on the transcript
pair from section 8 of the spec. -/
theorem c8_witness :
    (("Hi", "Hello world\n\n Sources: \n1. doc.pdf")
        ∈ [("Hi", "Hello world\n\n Sources: \n1. doc.pdf")])
    ∧ (ChatMessage.mk (stripSources ("Hi", "Hello world\n\n Sources: \n1. doc.pdf").2)
          MessageRole.assistant
        ∈ flattenPairs [("Hi", "Hello world\n\n Sources: \n1. doc.pdf")]
      ∧ containsSep sepChars
          (stripSources ("Hi", "Hello world\n\n Sources: \n1. doc.pdf").2).data = false
      ∧ (containsSep sepChars ("Hi", "Hello world\n\n Sources: \n1. doc.pdf").2.data = false →
          stripSources ("Hi", "Hello world\n\n Sources: \n1. doc.pdf").2
            = ("Hi", "Hello world\n\n Sources: \n1. doc.pdf").2)
      ∧ (containsSep sepChars ("Hi", "Hello world\n\n Sources: \n1. doc.pdf").2.data = true →
          ∃ rest, ("Hi", "Hello world\n\n Sources: \n1. doc.pdf").2.data
            = (stripSources ("Hi", "Hello world\n\n Sources: \n1. doc.pdf").2).data
                ++ sepChars ++ rest)) :=
  ⟨by decide,
   c8_assistant_content_stripped [("Hi", "Hello world\n\n Sources: \n1. doc.pdf")]
     ("Hi", "Hello world\n\n Sources: \n1. doc.pdf") (by decide)⟩

/-! Claim C1. -/

/-- Claim C1: the mode argument supplied by the transport layer to `_chat` is
ignored; two calls that differ only in the mode argument produce identical
backend calls and identical output streams. -/
theorem c1_mode_argument_ignored (store : List IngestedDoc)
    (stream_chat : List ChatMessage → Bool → Option ContextFilter → List Delta)
    (retrieve_relevant : String → Nat → Nat → List Chunk)
    (selected_filename : Option String) (system_prompt message : String)
    (history : List (String × String)) (mode1 mode2 : String) :
    _chat store stream_chat retrieve_relevant selected_filename system_prompt
        message history mode1
      = _chat store stream_chat retrieve_relevant selected_filename system_prompt
          message history mode2 := rfl

/-! Claim C6. -/

/-- The cumulative snapshots after each delta, starting from accumulated text
`acc`: the spec's description of the values the accumulator produces while the
stream is still running. -/
def cumulativeEmissions (acc : String) : List Delta → List String
  | [] => []
  | d :: ds => (acc ++ deltaText d) :: cumulativeEmissions (acc ++ deltaText d) ds

/-- The order-sensitive concatenation of all delta fragments. -/
def textTotal (ds : List Delta) : String :=
  ds.foldl (fun acc d => acc ++ deltaText d) ""

lemma cumulativeEmissions_length (ds : List Delta) : ∀ acc : String,
    (cumulativeEmissions acc ds).length = ds.length := by
  induction ds with
  | nil => intro acc; rfl
  | cons d ds ih => intro acc; simp [cumulativeEmissions, ih]

lemma yield_deltas_go_eq (ds : List Delta) : ∀ acc : String,
    yield_deltas_go acc ds
      = cumulativeEmissions acc ds
          ++ [ds.foldl (fun a d => a ++ deltaText d) acc] := by
  induction ds with
  | nil => intro acc; rfl
  | cons d ds ih =>
      intro acc
      simp only [yield_deltas_go, cumulativeEmissions, List.foldl_cons, ih,
        List.cons_append]

/-- Claim C6 (amended): every emitted value is the cumulative text accumulated
so far, and the accumulator emits one value per delta — including empty deltas
— plus one final duplicate after the stream ends, so a stream of `n` deltas
produces `n + 1` emissions whose last value is the order-sensitive
concatenation of all fragments. -/
theorem c6_stream_emissions (stream : List Delta) :
    yield_deltas stream = cumulativeEmissions "" stream ++ [textTotal stream]
    ∧ (yield_deltas stream).getLast? = some (textTotal stream)
    ∧ (yield_deltas stream).length = stream.length + 1 := by
  have h := yield_deltas_go_eq stream ""
  refine ⟨h, ?_, ?_⟩
  · show (yield_deltas_go "" stream).getLast? = _
    rw [h]
    exact List.getLast?_concat _
  · show (yield_deltas_go "" stream).length = _
    rw [h]
    simp [cumulativeEmissions_length]

/-- Claim C6 counterexample: the delta stream `["Hel", "lo", ""]` produces four
emitted values, not the three the claim asserts. -/
theorem c6_counterexample :
    yield_deltas [Delta.str "Hel", Delta.str "lo", Delta.str ""]
        = ["Hel", "Hello", "Hello", "Hello"]
    ∧ yield_deltas [Delta.str "Hel", Delta.str "lo", Delta.str ""]
        ≠ ["Hel", "Hello", "Hello"] :=
  ⟨rfl, by decide⟩

/-! Claim C10. -/

/-- Claim C10: the newly submitted user message is always the last element of
the message sequence passed to the generation backend; the 20-message cap is
applied only to the prior transcript messages, and the system message (when the
prompt is non-empty) is inserted at position 0. -/
theorem c10_new_message_always_last (system_prompt message : String)
    (history : List (String × String)) :
    assemble_messages system_prompt message history
      = (if system_prompt = "" then []
         else [ChatMessage.mk system_prompt MessageRole.system])
          ++ ((flattenPairs history).take 20 ++ [ChatMessage.mk message MessageRole.user])
    ∧ (assemble_messages system_prompt message history).getLast?
        = some (ChatMessage.mk message MessageRole.user) := by
  constructor
  · by_cases h : system_prompt = "" <;> simp [assemble_messages, build_history, h]
  · by_cases h : system_prompt = ""
    · simp only [assemble_messages, build_history, if_pos h]
      exact List.getLast?_concat _
    · simp only [assemble_messages, build_history, if_neg h]
      rw [show ChatMessage.mk system_prompt MessageRole.system ::
            ((flattenPairs history).take 20 ++ [ChatMessage.mk message MessageRole.user])
          = (ChatMessage.mk system_prompt MessageRole.system ::
              (flattenPairs history).take 20)
              ++ [ChatMessage.mk message MessageRole.user] from by simp]
      exact List.getLast?_concat _

/-! Claim C2. -/

/-- A transcript of 11 pairs, whose flattened expansion has 22 messages. -/
def c2Transcript : List (String × String) :=
  [("u0", "a0"), ("u1", "a1"), ("u2", "a2"), ("u3", "a3"), ("u4", "a4"),
   ("u5", "a5"), ("u6", "a6"), ("u7", "a7"), ("u8", "a8"), ("u9", "a9"),
   ("u10", "a10")]

/-- Claim C2, evaluated at the failing input: on a transcript of 11 pairs the
History Builder keeps the FIRST 20 messages of the flattened expansion (the
Python slice `[:20]`), which differs from the most recent 20 messages the claim
and the spec describe. -/
theorem c2_truncation_keeps_oldest :
    build_history c2Transcript = (flattenPairs c2Transcript).take 20
    ∧ (flattenPairs c2Transcript).length = 22
    ∧ build_history c2Transcript
        ≠ (flattenPairs c2Transcript).drop ((flattenPairs c2Transcript).length - 20) :=
  ⟨rfl, rfl, by decide⟩

/-! Claim C9. -/

lemma setAdd_mem_mono {α : Type} [DecidableEq α] {acc : List α} {x : α}
    (h : x ∈ acc) (y : α) : x ∈ setAdd acc y := by
  by_cases hy : y ∈ acc <;> simp [setAdd, hy, List.mem_append, h]

lemma setAdd_nodup {α : Type} [DecidableEq α] {acc : List α} (h : acc.Nodup)
    (x : α) : (setAdd acc x).Nodup := by
  by_cases hx : x ∈ acc
  · simpa [setAdd, hx] using h
  · rw [setAdd, if_neg hx, List.nodup_append]
    refine ⟨h, List.nodup_singleton x, ?_⟩
    intro a ha hax
    rw [List.mem_singleton] at hax
    exact hx (hax ▸ ha)

lemma foldl_setAdd_nodup {α : Type} [DecidableEq α] (xs : List α) :
    ∀ acc : List α, acc.Nodup → (xs.foldl setAdd acc).Nodup := by
  induction xs with
  | nil => intro acc h; exact h
  | cons a xs ih => intro acc h; exact ih _ (setAdd_nodup h a)

lemma pyFromKeys_nodup {α : Type} [DecidableEq α] (xs : List α) :
    (pyFromKeys xs).Nodup :=
  foldl_setAdd_nodup xs [] List.nodup_nil

lemma foldl_setAdd_sublist {α : Type} [DecidableEq α] (xs : List α) :
    ∀ acc : List α, (xs.foldl setAdd acc).Sublist (acc ++ xs) := by
  induction xs with
  | nil => intro acc; rw [List.append_nil]; exact List.Sublist.refl acc
  | cons a xs ih =>
      intro acc
      rw [List.foldl_cons]
      refine List.Sublist.trans (ih (setAdd acc a)) ?_
      by_cases h : a ∈ acc
      · rw [setAdd, if_pos h]
        exact List.Sublist.append_left (List.sublist_cons_self a xs) acc
      · rw [setAdd, if_neg h, List.append_assoc, List.singleton_append]

lemma pyFromKeys_sublist {α : Type} [DecidableEq α] (xs : List α) :
    (pyFromKeys xs).Sublist xs := by
  simpa using foldl_setAdd_sublist xs []

lemma foldl_setAdd_of_disjoint {α : Type} [DecidableEq α] (l : List α) :
    ∀ acc : List α, l.Nodup → (∀ x ∈ l, x ∉ acc) →
      l.foldl setAdd acc = acc ++ l := by
  induction l with
  | nil => intro acc _ _; simp
  | cons a l ih =>
      intro acc hnd hdisj
      rw [List.nodup_cons] at hnd
      have ha : a ∉ acc := hdisj a (List.mem_cons_self a l)
      have hstep : setAdd acc a = acc ++ [a] := by simp [setAdd, ha]
      have hdisj2 : ∀ x ∈ l, x ∉ acc ++ [a] := by
        intro x hx
        simp only [List.mem_append, List.mem_singleton]
        rintro (hxacc | hxa)
        · exact hdisj x (List.mem_cons_of_mem a hx) hxacc
        · exact hnd.1 (hxa ▸ hx)
      rw [List.foldl_cons, hstep, ih (acc ++ [a]) hnd.2 hdisj2, List.append_assoc,
        List.singleton_append]

lemma pyFromKeys_of_nodup {α : Type} [DecidableEq α] {l : List α}
    (h : l.Nodup) : pyFromKeys l = l := by
  have := foldl_setAdd_of_disjoint l [] h (by intro x _; simp)
  simpa [pyFromKeys] using this

lemma pyFromKeys_idem {α : Type} [DecidableEq α] (xs : List α) :
    pyFromKeys (pyFromKeys xs) = pyFromKeys xs :=
  pyFromKeys_of_nodup (pyFromKeys_nodup xs)

lemma pyFromKeys_concat {α : Type} [DecidableEq α] (xs : List α) (x : α) :
    pyFromKeys (xs ++ [x]) = setAdd (pyFromKeys xs) x := by
  rw [pyFromKeys, List.foldl_append]
  rfl

lemma curate_fold (l : List Chunk) : ∀ m : List Source,
    l.foldl (fun curated chunk => pyFromKeys (curated ++ [chunkSource chunk]))
        (pyFromKeys m)
      = pyFromKeys (m ++ l.map chunkSource) := by
  induction l with
  | nil => intro m; simp
  | cons c l ih =>
      intro m
      rw [List.foldl_cons]
      have h1 : pyFromKeys (pyFromKeys m ++ [chunkSource c])
          = pyFromKeys (m ++ [chunkSource c]) := by
        rw [pyFromKeys_concat, pyFromKeys_concat, pyFromKeys_idem]
      rw [h1, ih (m ++ [chunkSource c]), List.append_assoc, List.singleton_append,
        List.map_cons]

/-- Claim C9: `curate_sources` returns the order-preserving deduplication of
the input's `Source` records: it equals the first-occurrence-wins
deduplication, has no two structurally equal elements, and is a sublist of the
input's `Source` sequence (relative first-occurrence order preserved). -/
theorem c9_curate_sources_dedup (sources : List Chunk) :
    Source.curate_sources sources = pyFromKeys (sources.map chunkSource)
    ∧ (Source.curate_sources sources).Nodup
    ∧ (Source.curate_sources sources).Sublist (sources.map chunkSource) := by
  have h : Source.curate_sources sources = pyFromKeys (sources.map chunkSource) := by
    have h0 := curate_fold sources []
    simpa [Source.curate_sources, pyFromKeys] using h0
  refine ⟨h, ?_, ?_⟩
  · rw [h]; exact pyFromKeys_nodup _
  · rw [h]; exact pyFromKeys_sublist _

/-! Lemmas about the guarded metadata scans and the store-delete fold. -/

lemma setAdd_mem_self {α : Type} [DecidableEq α] (acc : List α) (x : α) :
    x ∈ setAdd acc x := by
  by_cases h : x ∈ acc <;> simp [setAdd, h]

lemma scanFileName_eq {r : IngestedDoc} (h : metaOkB r = true) :
    scanFileName r = .ok (guardFileName r) := by
  cases hs : scanFileName r with
  | ok v => unfold guardFileName; rw [hs]
  | error e => unfold metaOkB at h; rw [hs] at h; simp at h

lemma matchesSelected_eq (sel : Option String) {r : IngestedDoc}
    (h : metaOkB r = true) :
    matchesSelected sel r = .ok (matchesSelectedB sel r) := by
  have hs := scanFileName_eq h
  unfold matchesSelected
  rw [hs]
  cases hg : guardFileName r with
  | none => simp [matchesSelectedB, hg]
  | some fn =>
      cases sel with
      | none => simp [matchesSelectedB, hg]
      | some s => simp [matchesSelectedB, hg]

lemma filterNotMem_cons (s : List IngestedDoc) (i : String) (ids : List String) :
    (s.filter (fun x => decide (x.doc_id ≠ i))).filter
        (fun x => decide (x.doc_id ∉ ids))
      = s.filter (fun x => decide (x.doc_id ∉ i :: ids)) := by
  rw [List.filter_filter]
  apply List.filter_congr
  intro x _
  rw [← Bool.decide_and, decide_eq_decide]
  rw [List.mem_cons, not_or]
  constructor
  · intro h; exact ⟨h.2, h.1⟩
  · intro h; exact ⟨h.2, h.1⟩

lemma foldl_storeDelete (ids : List String) : ∀ s : List IngestedDoc,
    ids.foldl storeDelete s = s.filter (fun x => decide (x.doc_id ∉ ids)) := by
  induction ids with
  | nil => intro s; simp
  | cons i ids ih =>
      intro s
      rw [List.foldl_cons, ih (storeDelete s i)]
      simp only [storeDelete]
      rw [filterNotMem_cons]

/-! Claim C3. -/

/-- The ids of the records the `_delete_selected_file` loop deletes. -/
def selectedDeadIds (selected : Option String) (store : List IngestedDoc) :
    List String :=
  (store.filter (matchesSelectedB selected)).map IngestedDoc.doc_id

lemma deleteSelectedLoop_ok (selected : Option String) :
    ∀ snapshot s : List IngestedDoc, (∀ r ∈ snapshot, metaOkB r = true) →
      deleteSelectedLoop selected snapshot s
        = .ok (s.filter
            (fun x => decide (x.doc_id ∉ selectedDeadIds selected snapshot))) := by
  intro snapshot
  induction snapshot with
  | nil => intro s _; simp [deleteSelectedLoop, selectedDeadIds]
  | cons r rs ih =>
      intro s hok
      have hr := hok r (List.mem_cons_self r rs)
      have hrest : ∀ x ∈ rs, metaOkB x = true :=
        fun x hx => hok x (List.mem_cons_of_mem r hx)
      simp only [deleteSelectedLoop]
      rw [matchesSelected_eq selected hr]
      cases hb : matchesSelectedB selected r with
      | true =>
          show deleteSelectedLoop selected rs (storeDelete s r.doc_id) = _
          rw [ih (storeDelete s r.doc_id) hrest]
          rw [show selectedDeadIds selected (r :: rs)
              = r.doc_id :: selectedDeadIds selected rs from by
            simp [selectedDeadIds, List.filter_cons, hb]]
          simp only [storeDelete]
          rw [filterNotMem_cons]
      | false =>
          show deleteSelectedLoop selected rs s = _
          rw [ih s hrest]
          rw [show selectedDeadIds selected (r :: rs)
              = selectedDeadIds selected rs from by
            simp [selectedDeadIds, List.filter_cons, hb]]

lemma deleteAllLoop_eq : ∀ snapshot s : List IngestedDoc,
    deleteAllLoop snapshot s
      = s.filter (fun x => decide (x.doc_id ∉ snapshot.map IngestedDoc.doc_id)) := by
  intro snapshot
  induction snapshot with
  | nil => intro s; simp [deleteAllLoop]
  | cons r rs ih =>
      intro s
      simp only [deleteAllLoop]
      rw [ih (storeDelete s r.doc_id)]
      simp only [storeDelete]
      rw [filterNotMem_cons, List.map_cons]

lemma deleteAllLoop_self (store : List IngestedDoc) :
    deleteAllLoop store store = [] := by
  rw [deleteAllLoop_eq, List.filter_eq_nil_iff]
  intro r hr
  simp only [decide_eq_true_eq, not_not]
  exact List.mem_map_of_mem _ hr

/-- Claim C3 (amended): after `_delete_selected_file` every record whose
guarded file-name metadata equals the selected name has been deleted and the
returned UI state is deactivated (buttons non-interactive, label reset), and
after `_delete_all_files` the store is empty with the same deactivated UI
state; but neither operation clears the session's `_selected_filename`, which
is returned unchanged. -/
theorem c3_delete_deactivates_but_keeps_selection (selected : Option String)
    (store : List IngestedDoc) (hok : ∀ r ∈ store, metaOkB r = true) :
    (_delete_selected_file selected store
        = .ok (selected,
            store.filter (fun x => decide (x.doc_id ∉ selectedDeadIds selected store)),
            ⟨_list_ingested_files (store.filter
                (fun x => decide (x.doc_id ∉ selectedDeadIds selected store))),
             false, false, "All files"⟩)
      ∧ ∀ r ∈ store, matchesSelectedB selected r = true →
          r ∉ store.filter (fun x => decide (x.doc_id ∉ selectedDeadIds selected store)))
    ∧ _delete_all_files selected store
        = (selected, [], ⟨[], false, false, "All files"⟩) := by
  refine ⟨⟨?_, ?_⟩, ?_⟩
  · unfold _delete_selected_file
    rw [deleteSelectedLoop_ok selected store store hok]
  · intro r hr hm hmem
    rw [List.mem_filter, decide_eq_true_eq] at hmem
    exact hmem.2 (List.mem_map_of_mem _ (List.mem_filter.2 ⟨hr, hm⟩))
  · simp [_delete_all_files, deleteAllLoop_self, _list_ingested_files]

/-- Claim C3 counterexample: deleting the selected file `"a.pdf"` removes its
records but leaves the session selection equal to `some "a.pdf"` — it is not
cleared to `none` as the claim states. -/
theorem c3_counterexample :
    _delete_selected_file (some "a.pdf") [⟨"id1", some [("file_name", "a.pdf")]⟩]
      = .ok (some "a.pdf", [], ⟨[], false, false, "All files"⟩)
    ∧ (some "a.pdf" : Option String) ≠ none :=
  ⟨rfl, by simp⟩

/-- Concrete instantiation of `c3_delete_deactivates_but_keeps_selection`. -/
theorem c3_witness :
    (∀ r ∈ [(⟨"id1", some [("file_name", "a.pdf")]⟩ : IngestedDoc),
            ⟨"id2", some [("file_name", "b.pdf")]⟩], metaOkB r = true)
    ∧ ((_delete_selected_file (some "a.pdf")
          [(⟨"id1", some [("file_name", "a.pdf")]⟩ : IngestedDoc),
           ⟨"id2", some [("file_name", "b.pdf")]⟩]
        = .ok (some "a.pdf",
            [(⟨"id1", some [("file_name", "a.pdf")]⟩ : IngestedDoc),
             ⟨"id2", some [("file_name", "b.pdf")]⟩].filter
              (fun x => decide (x.doc_id ∉ selectedDeadIds (some "a.pdf")
                [(⟨"id1", some [("file_name", "a.pdf")]⟩ : IngestedDoc),
                 ⟨"id2", some [("file_name", "b.pdf")]⟩])),
            ⟨_list_ingested_files
              ([(⟨"id1", some [("file_name", "a.pdf")]⟩ : IngestedDoc),
                ⟨"id2", some [("file_name", "b.pdf")]⟩].filter
                (fun x => decide (x.doc_id ∉ selectedDeadIds (some "a.pdf")
                  [(⟨"id1", some [("file_name", "a.pdf")]⟩ : IngestedDoc),
                   ⟨"id2", some [("file_name", "b.pdf")]⟩]))),
             false, false, "All files"⟩)
      ∧ ∀ r ∈ [(⟨"id1", some [("file_name", "a.pdf")]⟩ : IngestedDoc),
               ⟨"id2", some [("file_name", "b.pdf")]⟩],
          matchesSelectedB (some "a.pdf") r = true →
            r ∉ [(⟨"id1", some [("file_name", "a.pdf")]⟩ : IngestedDoc),
                 ⟨"id2", some [("file_name", "b.pdf")]⟩].filter
              (fun x => decide (x.doc_id ∉ selectedDeadIds (some "a.pdf")
                [(⟨"id1", some [("file_name", "a.pdf")]⟩ : IngestedDoc),
                 ⟨"id2", some [("file_name", "b.pdf")]⟩])))
      ∧ _delete_all_files (some "a.pdf")
          [(⟨"id1", some [("file_name", "a.pdf")]⟩ : IngestedDoc),
           ⟨"id2", some [("file_name", "b.pdf")]⟩]
        = (some "a.pdf", [], ⟨[], false, false, "All files"⟩)) :=
  ⟨by decide,
   c3_delete_deactivates_but_keeps_selection (some "a.pdf")
     [⟨"id1", some [("file_name", "a.pdf")]⟩, ⟨"id2", some [("file_name", "b.pdf")]⟩]
     (by decide)⟩

/-! Claim C7. -/

/-- Whether a record's guarded file-name read is one of the incoming names. -/
def uploadMatchesB (file_names : List String) (r : IngestedDoc) : Bool :=
  match guardFileName r with
  | some fn => decide (fn ∈ file_names)
  | none => false

/-- The ids `_upload_file` collects for deletion, in scan order. -/
def uploadDeadIds (file_names : List String) (store : List IngestedDoc) :
    List String :=
  (store.filter (uploadMatchesB file_names)).map IngestedDoc.doc_id

/-- The `(name, path)` pairs passed to `bulk_ingest`. -/
def uploadPairs (files : List String) : List (String × String) :=
  files.map (fun p => (path_name p, p))

/-- The store contents after a successful `_upload_file`: the surviving old
records followed by the freshly ingested ones. -/
def replacedStore (ingest_fn : List (String × String) → List IngestedDoc)
    (store : List IngestedDoc) (files : List String) : List IngestedDoc :=
  store.filter (fun x => decide (x.doc_id ∉ uploadDeadIds (files.map path_name) store))
    ++ ingest_fn (uploadPairs files)

lemma uploadScan_ok (file_names : List String) : ∀ store : List IngestedDoc,
    (∀ r ∈ store, metaOkB r = true) →
    uploadScan file_names store = .ok (uploadDeadIds file_names store) := by
  intro store
  induction store with
  | nil => intro _; rfl
  | cons r rs ih =>
      intro hok
      have hr := scanFileName_eq (hok r (List.mem_cons_self r rs))
      have hih := ih (fun x hx => hok x (List.mem_cons_of_mem r hx))
      simp only [uploadScan]
      rw [hr]
      cases hg : guardFileName r with
      | none =>
          show uploadScan file_names rs = _
          rw [hih]
          rw [show uploadDeadIds file_names (r :: rs)
              = uploadDeadIds file_names rs from by
            simp [uploadDeadIds, List.filter_cons, uploadMatchesB, hg]]
      | some fn =>
          show (match uploadScan file_names rs with
                | Except.error e => Except.error e
                | Except.ok ids =>
                    Except.ok (if fn ∈ file_names then r.doc_id :: ids else ids)) = _
          rw [hih]
          by_cases hmem : fn ∈ file_names
          · show Except.ok (if fn ∈ file_names then
                r.doc_id :: uploadDeadIds file_names rs else uploadDeadIds file_names rs) = _
            rw [if_pos hmem]
            rw [show uploadDeadIds file_names (r :: rs)
                = r.doc_id :: uploadDeadIds file_names rs from by
              simp [uploadDeadIds, List.filter_cons, uploadMatchesB, hg, hmem]]
          · show Except.ok (if fn ∈ file_names then
                r.doc_id :: uploadDeadIds file_names rs else uploadDeadIds file_names rs) = _
            rw [if_neg hmem]
            rw [show uploadDeadIds file_names (r :: rs)
                = uploadDeadIds file_names rs from by
              simp [uploadDeadIds, List.filter_cons, uploadMatchesB, hg, hmem]]

/-- Claim C7: `_upload_file` deletes every already-ingested record whose
file-name metadata equals one of the incoming display names before issuing the
bulk-ingest call (the call list places every `delete` before `bulkIngest`), and
afterwards the records carrying one of the uploaded names are exactly the
freshly ingested ones. -/
theorem c7_upload_replaces
    (ingest_fn : List (String × String) → List IngestedDoc)
    (store : List IngestedDoc) (files : List String)
    (hok : ∀ r ∈ store, metaOkB r = true) :
    _upload_file ingest_fn store files
      = .ok (replacedStore ingest_fn store files,
          [StoreCall.listIngested]
            ++ (uploadDeadIds (files.map path_name) store).map StoreCall.delete
            ++ [StoreCall.bulkIngest (uploadPairs files)])
    ∧ ∀ x ∈ files.map path_name,
        (replacedStore ingest_fn store files).filter
            (fun r => decide (guardFileName r = some x))
          = (ingest_fn (uploadPairs files)).filter
              (fun r => decide (guardFileName r = some x)) := by
  constructor
  · simp only [_upload_file]
    rw [uploadScan_ok (files.map path_name) store hok]
    show Except.ok
        ((uploadDeadIds (files.map path_name) store).foldl storeDelete store
           ++ ingest_fn (uploadPairs files), _) = _
    rw [foldl_storeDelete]
    rfl
  · intro x hx
    have hnil : (store.filter
          (fun xx => decide (xx.doc_id ∉ uploadDeadIds (files.map path_name) store))).filter
            (fun r => decide (guardFileName r = some x)) = [] := by
      rw [List.filter_filter, List.filter_eq_nil_iff]
      intro r hr hcon
      rw [Bool.and_eq_true, decide_eq_true_eq, decide_eq_true_eq] at hcon
      exact hcon.2 (List.mem_map_of_mem _
        (List.mem_filter.2 ⟨hr, by simp [uploadMatchesB, hcon.1, hx]⟩))
    rw [replacedStore, List.filter_append, hnil, List.nil_append]

/-- Concrete instantiation of `c7_upload_replaces`: uploading `"dir/x.pdf"`
over a store already holding records named `"x.pdf"` and `"y.pdf"`. -/
theorem c7_witness :
    (∀ r ∈ [(⟨"old1", some [("file_name", "x.pdf")]⟩ : IngestedDoc),
            ⟨"old2", some [("file_name", "y.pdf")]⟩], metaOkB r = true)
    ∧ (_upload_file
          (fun pairs => pairs.map (fun pr => ⟨"new_" ++ pr.1, some [("file_name", pr.1)]⟩))
          [(⟨"old1", some [("file_name", "x.pdf")]⟩ : IngestedDoc),
           ⟨"old2", some [("file_name", "y.pdf")]⟩] ["dir/x.pdf"]
        = .ok (replacedStore
            (fun pairs => pairs.map (fun pr => ⟨"new_" ++ pr.1, some [("file_name", pr.1)]⟩))
            [(⟨"old1", some [("file_name", "x.pdf")]⟩ : IngestedDoc),
             ⟨"old2", some [("file_name", "y.pdf")]⟩] ["dir/x.pdf"],
            [StoreCall.listIngested]
              ++ (uploadDeadIds (["dir/x.pdf"].map path_name)
                   [(⟨"old1", some [("file_name", "x.pdf")]⟩ : IngestedDoc),
                    ⟨"old2", some [("file_name", "y.pdf")]⟩]).map StoreCall.delete
              ++ [StoreCall.bulkIngest (uploadPairs ["dir/x.pdf"])])
      ∧ ∀ x ∈ ["dir/x.pdf"].map path_name,
          (replacedStore
              (fun pairs => pairs.map (fun pr => ⟨"new_" ++ pr.1, some [("file_name", pr.1)]⟩))
              [(⟨"old1", some [("file_name", "x.pdf")]⟩ : IngestedDoc),
               ⟨"old2", some [("file_name", "y.pdf")]⟩] ["dir/x.pdf"]).filter
              (fun r => decide (guardFileName r = some x))
            = ((uploadPairs ["dir/x.pdf"]).map
                  (fun pr => (⟨"new_" ++ pr.1, some [("file_name", pr.1)]⟩ : IngestedDoc))).filter
                (fun r => decide (guardFileName r = some x))) :=
  ⟨by decide,
   c7_upload_replaces
     (fun pairs => pairs.map (fun pr => ⟨"new_" ++ pr.1, some [("file_name", pr.1)]⟩))
     [⟨"old1", some [("file_name", "x.pdf")]⟩, ⟨"old2", some [("file_name", "y.pdf")]⟩]
     ["dir/x.pdf"] (by decide)⟩

/-! Claim C4. -/

lemma scanDocsIds_ok (name : String) : ∀ store : List IngestedDoc,
    (∀ r ∈ store, chatScanOkB r = true) →
    scanDocsIds name store
      = .ok ((store.filter
          (fun r => decide (chatFileName r = some name))).map IngestedDoc.doc_id) := by
  intro store
  induction store with
  | nil => intro _; rfl
  | cons r rs ih =>
      intro hok
      have hih := ih (fun x hx => hok x (List.mem_cons_of_mem r hx))
      obtain ⟨rid, rmeta⟩ := r
      have hr := hok ⟨rid, rmeta⟩ (List.mem_cons_self _ rs)
      cases rmeta with
      | none => simp [chatScanOkB, chatFileName] at hr
      | some d =>
          cases hf : Dict.find d "file_name" with
          | none => simp [chatScanOkB, chatFileName, hf] at hr
          | some fn =>
              have hcf : chatFileName ⟨rid, some d⟩ = some fn := by
                simp [chatFileName, hf]
              by_cases heq : fn = name
              · simp [scanDocsIds, hf, hih, List.filter_cons, hcf, heq]
              · simp [scanDocsIds, hf, hih, List.filter_cons, hcf, heq]

/-- Claim C4 (amended): when a document is selected but no ingested record's
file-name metadata matches it, the generation call is issued with
`ContextFilter(docs_ids=[])` — an empty-list filter, which is not the `None`
(all-documents) filter used when no document is selected. -/
theorem c4_unmatched_selection_empty_filter (store : List IngestedDoc)
    (stream_chat : List ChatMessage → Bool → Option ContextFilter → List Delta)
    (retrieve_relevant : String → Nat → Nat → List Chunk)
    (name system_prompt message : String) (history : List (String × String))
    (mode : String)
    (hok : ∀ r ∈ store, chatScanOkB r = true)
    (hnm : ∀ r ∈ store, chatFileName r ≠ some name) :
    _chat store stream_chat retrieve_relevant (some name) system_prompt message
        history mode
      = .ok ([BackendCall.listIngested,
              BackendCall.streamChat (assemble_messages system_prompt message history)
                true (some ⟨[]⟩)],
             yield_deltas (stream_chat (assemble_messages system_prompt message history)
               true (some ⟨[]⟩)))
    ∧ _chat store stream_chat retrieve_relevant none system_prompt message history mode
        = .ok ([BackendCall.streamChat (assemble_messages system_prompt message history)
                 true none],
               yield_deltas (stream_chat (assemble_messages system_prompt message history)
                 true none))
    ∧ some (ContextFilter.mk []) ≠ (none : Option ContextFilter) := by
  refine ⟨?_, rfl, by simp⟩
  have hscan : scanDocsIds name store = .ok [] := by
    rw [scanDocsIds_ok name store hok]
    rw [show store.filter (fun r => decide (chatFileName r = some name)) = [] from
      List.filter_eq_nil_iff.2 (fun r hr => by simp [hnm r hr])]
    rfl
  unfold _chat chatDispatch
  rw [if_pos rfl]
  unfold chatQueryFiles queryFilter
  simp only [hscan]
  rfl

/-- Claim C4 counterexample: with `"x.pdf"` selected over an empty store, the
generation call carries the filter `some (ContextFilter.mk [])`, not the `none`
filter the claim asserts (and which the no-selection call uses). -/
theorem c4_counterexample :
    _chat [] (fun _ _ _ => []) (fun _ _ _ => []) (some "x.pdf") "" "hi" [] "Query Files"
      = .ok ([BackendCall.listIngested,
              BackendCall.streamChat [ChatMessage.mk "hi" MessageRole.user] true
                (some ⟨[]⟩)], [""])
    ∧ some (ContextFilter.mk []) ≠ (none : Option ContextFilter) :=
  ⟨rfl, by simp⟩

/-- Concrete instantiation of `c4_unmatched_selection_empty_filter`. -/
theorem c4_witness :
    (∀ r ∈ [(⟨"idz", some [("file_name", "y.pdf")]⟩ : IngestedDoc)],
        chatScanOkB r = true)
    ∧ (∀ r ∈ [(⟨"idz", some [("file_name", "y.pdf")]⟩ : IngestedDoc)],
        chatFileName r ≠ some "x.pdf")
    ∧ (_chat [(⟨"idz", some [("file_name", "y.pdf")]⟩ : IngestedDoc)]
          (fun _ _ _ => []) (fun _ _ _ => []) (some "x.pdf") "" "hi" [] "Search Files"
        = .ok ([BackendCall.listIngested,
                BackendCall.streamChat (assemble_messages "" "hi" []) true (some ⟨[]⟩)],
               yield_deltas ([] : List Delta))
      ∧ _chat [(⟨"idz", some [("file_name", "y.pdf")]⟩ : IngestedDoc)]
            (fun _ _ _ => []) (fun _ _ _ => []) none "" "hi" [] "Search Files"
          = .ok ([BackendCall.streamChat (assemble_messages "" "hi" []) true none],
                 yield_deltas ([] : List Delta))
      ∧ some (ContextFilter.mk []) ≠ (none : Option ContextFilter)) :=
  ⟨by decide, by decide,
   c4_unmatched_selection_empty_filter [⟨"idz", some [("file_name", "y.pdf")]⟩]
     (fun _ _ _ => []) (fun _ _ _ => []) "x.pdf" "" "hi" [] "Search Files"
     (by decide) (by decide)⟩

/-! Claim C5. -/

lemma foldl_listFilesStep_mem (store : List IngestedDoc) :
    ∀ (acc : List String) (x : String),
      x ∈ acc → x ∈ store.foldl listFilesStep acc := by
  induction store with
  | nil => intro acc x h; exact h
  | cons r rs ih =>
      intro acc x h
      rw [List.foldl_cons]
      apply ih
      cases hm : r.doc_metadata with
      | none => simpa [listFilesStep, hm] using h
      | some d =>
          simp only [listFilesStep, hm]
          exact setAdd_mem_mono h _

lemma missing_mem_foldl (store : List IngestedDoc) : ∀ acc : List String,
    ∀ r ∈ store, ∀ d : Dict, r.doc_metadata = some d →
      Dict.find d "file_name" = none →
      "[FILE NAME MISSING]" ∈ store.foldl listFilesStep acc := by
  induction store with
  | nil => intro acc r hr; cases hr
  | cons r0 rs ih =>
      intro acc r hr d hd hf
      rw [List.foldl_cons]
      rcases List.mem_cons.1 hr with rfl | hr2
      · apply foldl_listFilesStep_mem
        simp only [listFilesStep, hd]
        rw [show Dict.getD d "file_name" "[FILE NAME MISSING]"
            = "[FILE NAME MISSING]" from by rw [Dict.getD, hf]; rfl]
        exact setAdd_mem_self _ _
      · exact ih (listFilesStep acc r0) r hr2 d hd hf

lemma scanDocsIds_error_of_none (name : String) :
    ∀ (store : List IngestedDoc) (r : IngestedDoc),
      r ∈ store → r.doc_metadata = none →
      ∃ e, scanDocsIds name store = .error e := by
  intro store
  induction store with
  | nil => intro r hr; cases hr
  | cons r0 rs ih =>
      intro r hr hm
      rcases List.mem_cons.1 hr with rfl | hr2
      · exact ⟨"TypeError", by simp [scanDocsIds, hm]⟩
      · obtain ⟨rid, rmeta⟩ := r0
        cases rmeta with
        | none => exact ⟨"TypeError", by simp [scanDocsIds]⟩
        | some d =>
            cases hf : Dict.find d "file_name" with
            | none => exact ⟨"KeyError", by simp [scanDocsIds, hf]⟩
            | some fn =>
                obtain ⟨e, he⟩ := ih r hr2 hm
                exact ⟨e, by simp [scanDocsIds, hf, he]⟩

lemma uploadScan_error_of_missing (file_names : List String) :
    ∀ (store : List IngestedDoc) (r : IngestedDoc) (d : Dict),
      r ∈ store → r.doc_metadata = some d → d.isEmpty = false →
      Dict.find d "file_name" = none →
      ∃ e, uploadScan file_names store = .error e := by
  intro store
  induction store with
  | nil => intro r d hr; cases hr
  | cons r0 rs ih =>
      intro r d hr hd hne hf
      rcases List.mem_cons.1 hr with rfl | hr2
      · exact ⟨"KeyError", by simp [uploadScan, scanFileName, hd, hne, hf]⟩
      · obtain ⟨e, he⟩ := ih r d hr2 hd hne hf
        cases hs : scanFileName r0 with
        | error e0 => exact ⟨e0, by simp [uploadScan, hs]⟩
        | ok v =>
            cases v with
            | none => exact ⟨e, by simp [uploadScan, hs, he]⟩
            | some fn => exact ⟨e, by simp [uploadScan, hs, he]⟩

/-- Claim C5 (amended): only `_list_ingested_files` and `curate_sources`
tolerate records whose metadata is absent or lacks the file-name key, by
substituting the placeholders `"[FILE NAME MISSING]"` and `"-"`.  The Query
Files selected-document scan raises on any record whose metadata is absent
(and on a missing key), and the upload-replace and delete-selected scans raise
on any record whose non-empty metadata lacks the file-name key. -/
theorem c5_tolerance_is_selective :
    (∀ (store : List IngestedDoc) (r : IngestedDoc) (d : Dict),
        r ∈ store → r.doc_metadata = some d → Dict.find d "file_name" = none →
          ["[FILE NAME MISSING]"] ∈ _list_ingested_files store)
    ∧ (∀ t : String, chunkSource ⟨⟨"", none⟩, t⟩ = ⟨"-", "-", t⟩)
    ∧ (∀ (t : String) (d : Dict), Dict.find d "file_name" = none →
          (chunkSource ⟨⟨"", some d⟩, t⟩).file = "-")
    ∧ (∀ (name : String) (store : List IngestedDoc) (r : IngestedDoc),
        r ∈ store → r.doc_metadata = none →
          ∃ e, scanDocsIds name store = .error e)
    ∧ (∀ (file_names : List String) (store : List IngestedDoc) (r : IngestedDoc)
          (d : Dict),
        r ∈ store → r.doc_metadata = some d → d.isEmpty = false →
          Dict.find d "file_name" = none →
          ∃ e, uploadScan file_names store = .error e) := by
  refine ⟨?_, ?_, ?_, scanDocsIds_error_of_none, uploadScan_error_of_missing⟩
  · intro store r d hr hd hf
    exact List.mem_map_of_mem _ (missing_mem_foldl store [] r hr d hd hf)
  · intro t; rfl
  · intro t d hf
    by_cases he : d.isEmpty
    · simp [chunkSource, metaTruthyGetD, he]
    · simp [chunkSource, metaTruthyGetD, he, Dict.getD, hf]

/-- Claim C5 counterexample: a `_chat` turn with a selected document raises
(`TypeError`) when the store holds a record without metadata — the scan is not
tolerant and does not substitute placeholder values. -/
theorem c5_counterexample :
    _chat [⟨"id1", none⟩] (fun _ _ _ => []) (fun _ _ _ => [])
        (some "x.pdf") "" "hi" [] "Query Files" = .error "TypeError"
    ∧ ¬ ∃ v, _chat [⟨"id1", none⟩] (fun _ _ _ => []) (fun _ _ _ => [])
        (some "x.pdf") "" "hi" [] "Query Files" = .ok v := by
  refine ⟨rfl, ?_⟩
  rintro ⟨v, hv⟩
  rw [show _chat [⟨"id1", none⟩] (fun _ _ _ => []) (fun _ _ _ => [])
      (some "x.pdf") "" "hi" [] "Query Files"
      = (.error "TypeError" : Except String (List BackendCall × List String))
    from rfl] at hv
  exact Except.noConfusion hv

/-- Concrete instantiations of the conjuncts of `c5_tolerance_is_selective`. -/
theorem c5_witness :
    ["[FILE NAME MISSING]"] ∈ _list_ingested_files [⟨"id1", some [("other", "v")]⟩]
    ∧ chunkSource ⟨⟨"", none⟩, "txt"⟩ = ⟨"-", "-", "txt"⟩
    ∧ (chunkSource ⟨⟨"", some [("other", "v")]⟩, "txt"⟩).file = "-"
    ∧ (∃ e, scanDocsIds "x.pdf" [⟨"id1", none⟩] = .error e)
    ∧ (∃ e, uploadScan ["x.pdf"] [⟨"id1", some [("other", "v")]⟩] = .error e) :=
  ⟨c5_tolerance_is_selective.1 [⟨"id1", some [("other", "v")]⟩]
     ⟨"id1", some [("other", "v")]⟩ [("other", "v")] (by decide) rfl (by decide),
   c5_tolerance_is_selective.2.1 "txt",
   c5_tolerance_is_selective.2.2.1 "txt" [("other", "v")] (by decide),
   c5_tolerance_is_selective.2.2.2.1 "x.pdf" [⟨"id1", none⟩] ⟨"id1", none⟩
     (by decide) rfl,
   c5_tolerance_is_selective.2.2.2.2 ["x.pdf"] [⟨"id1", some [("other", "v")]⟩]
     ⟨"id1", some [("other", "v")]⟩ [("other", "v")] (by decide) rfl (by decide)
     (by decide)⟩

end PrivateGpt
